import Mathlib

/-!
Verification of the Hook Contract and Dispatch Layer of the cursor-hooks
package, against its TypeScript source (src/types.ts and the handler-map
dispatch snippet of the README).

The embedding models decoded JSON values as an inductive `Json` and
translates the runtime guard `isHookPayloadOf`, the declarative
response/configuration shapes, and the handler dispatch into executable
Lean definitions.
-/

/-- Decoded JSON value, as handed to the library by the transport after
JSON.parse.  Objects are association lists of string keys to values
(JSON.parse yields unique keys). -/
inductive Json where
  | null : Json
  | bool : Bool → Json
  | num : Int → Json
  | str : String → Json
  | arr : List Json → Json
  | obj : List (String × Json) → Json

/-- JavaScript `typeof v === "object"`: true exactly for null, arrays and
plain objects among decoded JSON values. -/
def jsTypeofIsObject : Json → Bool
  | Json.null => true
  | Json.arr _ => true
  | Json.obj _ => true
  | _ => false

/-- JavaScript `v === null` over decoded JSON values. -/
def jsIsNull : Json → Bool
  | Json.null => true
  | _ => false

/-- JavaScript `k in v`: property membership.  For decoded JSON values a
plain object has exactly its own string keys; an array has only numeric
index keys (and length), so a non-numeric key such as "hook_event_name"
is never a member of an array; primitives and null have no keys. -/
def jsHasKey (v : Json) (k : String) : Bool :=
  match v with
  | Json.obj fields => fields.any (fun kv => kv.1 == k)
  | _ => false

/-- JavaScript property access `v[k]` over decoded JSON values: `some`
the stored value when the key is present on an object, `none` (modelling
`undefined`) otherwise. -/
def jsGet (v : Json) (k : String) : Option Json :=
  match v with
  | Json.obj fields => (fields.find? (fun kv => kv.1 == k)).map (fun kv => kv.2)
  | _ => none

/-- JavaScript strict equality `x === s` of a possibly-undefined property
value against a string literal: true exactly when the value is present
and is that string (undefined, non-strings and objects are never
strictly equal to a string). -/
def jsEqStringLit (x : Option Json) (s : String) : Bool :=
  match x with
  | some (Json.str t) => t == s
  | _ => false

/-- The closed six-member set of hook event names (src/types.ts,
HookEventName). -/
inductive HookEventName where
  | beforeShellExecution
  | beforeMCPExecution
  | afterFileEdit
  | beforeReadFile
  | beforeSubmitPrompt
  | stop
deriving DecidableEq, Repr

/-- The wire string of each hook event name, exactly the string-literal
union of src/types.ts lines 13-19. -/
def HookEventName.toWire : HookEventName → String
  | HookEventName.beforeShellExecution => "beforeShellExecution"
  | HookEventName.beforeMCPExecution => "beforeMCPExecution"
  | HookEventName.afterFileEdit => "afterFileEdit"
  | HookEventName.beforeReadFile => "beforeReadFile"
  | HookEventName.beforeSubmitPrompt => "beforeSubmitPrompt"
  | HookEventName.stop => "stop"

/-- The runtime discriminant guard isHookPayloadOf (src/types.ts lines
184-194), conjunct for conjunct:
typeof payload === "object" && payload !== null &&
"hook_event_name" in payload && payload.hook_event_name === event. -/
def isHookPayloadOf (payload : Json) (event : HookEventName) : Bool :=
  jsTypeofIsObject payload &&
  !(jsIsNull payload) &&
  jsHasKey payload "hook_event_name" &&
  jsEqStringLit (jsGet payload "hook_event_name") (HookEventName.toWire event)

/-- toWire is injective: the six wire strings are pairwise distinct. -/
theorem HookEventName.toWire_injective :
    Function.Injective HookEventName.toWire := by
  intro a b h
  cases a <;> cases b <;> first | rfl | (simp [HookEventName.toWire] at h)

/-- On an object, key membership coincides with definedness of access. -/
theorem jsHasKey_eq_isSome_jsGet (v : Json) (k : String) :
    jsHasKey v k = (jsGet v k).isSome := by
  cases v <;> simp only [jsHasKey, jsGet, Option.isSome_map, Option.isSome_none]
  case obj fields =>
    induction fields with
    | nil => rfl
    | cons kv rest ih =>
      by_cases h : kv.1 = k
      · simp [List.any_cons, List.find?_cons, h]
      · simp only [List.any_cons, List.find?_cons]
        have hb : (kv.1 == k) = false := beq_false_of_ne h
        simp [hb, ih]

/-- C1: for every hook event E and every non-null object P whose
hook_event_name field equals E's wire name, isHookPayloadOf(P, E) is
true, and for every other event E2 distinct from E it is false. -/
theorem isHookPayloadOf_discriminates (fields : List (String × Json))
    (E E2 : HookEventName)
    (h : jsGet (Json.obj fields) "hook_event_name" =
      some (Json.str (HookEventName.toWire E)))
    (hne : E2 ≠ E) :
    isHookPayloadOf (Json.obj fields) E = true ∧
    isHookPayloadOf (Json.obj fields) E2 = false := by
  have hk : jsHasKey (Json.obj fields) "hook_event_name" = true := by
    rw [jsHasKey_eq_isSome_jsGet, h]
    rfl
  refine ⟨?_, ?_⟩
  · simp [isHookPayloadOf, jsTypeofIsObject, jsIsNull, hk, h, jsEqStringLit]
  · simp only [isHookPayloadOf, jsTypeofIsObject, jsIsNull, hk, h,
      jsEqStringLit, Bool.not_false, Bool.true_and, beq_eq_false_iff_ne,
      ne_eq, Bool.and_eq_false_imp]
    intro hw
    exact hne (HookEventName.toWire_injective hw).symm

/-- Witness for C1 at a concrete payload claiming the stop event, checked
against stop and against beforeReadFile. -/
theorem isHookPayloadOf_discriminates_witness :
    jsGet (Json.obj [("hook_event_name", Json.str "stop")])
        "hook_event_name" =
      some (Json.str (HookEventName.toWire HookEventName.stop)) ∧
    HookEventName.beforeReadFile ≠ HookEventName.stop ∧
    (isHookPayloadOf (Json.obj [("hook_event_name", Json.str "stop")])
        HookEventName.stop = true ∧
     isHookPayloadOf (Json.obj [("hook_event_name", Json.str "stop")])
        HookEventName.beforeReadFile = false) :=
  ⟨rfl, by decide,
    isHookPayloadOf_discriminates _ HookEventName.stop
      HookEventName.beforeReadFile rfl (by decide)⟩

/-- C2: the guard is a total function (it is a Lean `def` defined on all
of Json, so it cannot raise) and returns false for null, booleans,
numbers, strings, every array, and any value lacking the
hook_event_name key. -/
theorem isHookPayloadOf_false_on_malformed :
    (∀ (v : Json) (E : HookEventName),
      jsHasKey v "hook_event_name" = false → isHookPayloadOf v E = false) ∧
    (∀ E : HookEventName, isHookPayloadOf Json.null E = false) ∧
    (∀ (b : Bool) (E : HookEventName),
      isHookPayloadOf (Json.bool b) E = false) ∧
    (∀ (n : Int) (E : HookEventName),
      isHookPayloadOf (Json.num n) E = false) ∧
    (∀ (s : String) (E : HookEventName),
      isHookPayloadOf (Json.str s) E = false) ∧
    (∀ (xs : List Json) (E : HookEventName),
      isHookPayloadOf (Json.arr xs) E = false) := by
  refine ⟨?_, ?_, ?_, ?_, ?_, ?_⟩
  · intro v E h
    simp [isHookPayloadOf, h]
  all_goals intros
  all_goals simp [isHookPayloadOf, jsTypeofIsObject, jsIsNull, jsHasKey]

/-- Witness for C2 at an object missing the discriminant key. -/
theorem isHookPayloadOf_false_on_malformed_witness :
    jsHasKey (Json.obj [("foo", Json.num 3)]) "hook_event_name" = false ∧
    isHookPayloadOf (Json.obj [("foo", Json.num 3)])
      HookEventName.beforeShellExecution = false :=
  ⟨rfl, isHookPayloadOf_false_on_malformed.1 _ _ rfl⟩

/-- C3: the guard returns true for any non-null object whose
hook_event_name equals the requested event, regardless of which other
fields are present or how they are typed. -/
theorem isHookPayloadOf_checks_only_discriminant
    (fields : List (String × Json)) (E : HookEventName)
    (h : jsGet (Json.obj fields) "hook_event_name" =
      some (Json.str (HookEventName.toWire E))) :
    isHookPayloadOf (Json.obj fields) E = true := by
  have hk : jsHasKey (Json.obj fields) "hook_event_name" = true := by
    rw [jsHasKey_eq_isSome_jsGet, h]
    rfl
  simp [isHookPayloadOf, jsTypeofIsObject, jsIsNull, hk, h, jsEqStringLit]

/-- Witness for C3 at a payload with no conversation_id, generation_id,
workspace_roots or event-specific fields, plus a junk field. -/
theorem isHookPayloadOf_checks_only_discriminant_witness :
    jsGet
        (Json.obj
          [("hook_event_name", Json.str "beforeReadFile"),
           ("junk", Json.num 7)]) "hook_event_name" =
      some (Json.str (HookEventName.toWire HookEventName.beforeReadFile)) ∧
    isHookPayloadOf
      (Json.obj
        [("hook_event_name", Json.str "beforeReadFile"),
         ("junk", Json.num 7)]) HookEventName.beforeReadFile = true :=
  ⟨rfl, isHookPayloadOf_checks_only_discriminant _ _ rfl⟩

/-- C9: mutual exclusion of the guard across events: no value is
accepted as a payload of two distinct events. -/
theorem isHookPayloadOf_mutually_exclusive (v : Json)
    (E1 E2 : HookEventName)
    (h1 : isHookPayloadOf v E1 = true)
    (h2 : isHookPayloadOf v E2 = true) : E1 = E2 := by
  simp only [isHookPayloadOf, Bool.and_eq_true] at h1 h2
  have hq1 := h1.2
  have hq2 := h2.2
  cases hg : jsGet v "hook_event_name" with
  | none =>
    rw [hg] at hq1
    simp [jsEqStringLit] at hq1
  | some x =>
    cases x <;> rw [hg] at hq1 hq2 <;> simp [jsEqStringLit] at hq1 hq2
    case str t =>
      exact HookEventName.toWire_injective (hq1 ▸ hq2.symm ▸ rfl)

/-- Witness for C9: a concrete stop payload accepted as stop twice. -/
theorem isHookPayloadOf_mutually_exclusive_witness :
    isHookPayloadOf (Json.obj [("hook_event_name", Json.str "stop")])
        HookEventName.stop = true ∧
    HookEventName.stop = HookEventName.stop :=
  ⟨rfl,
    isHookPayloadOf_mutually_exclusive
      (Json.obj [("hook_event_name", Json.str "stop")])
      HookEventName.stop HookEventName.stop rfl rfl⟩

/-- C10: noninterference: two objects whose hook_event_name property
values agree (both present and equal, or both absent) are treated
identically by the guard for every requested event. -/
theorem isHookPayloadOf_noninterference
    (fs1 fs2 : List (String × Json)) (E : HookEventName)
    (h : jsGet (Json.obj fs1) "hook_event_name" =
      jsGet (Json.obj fs2) "hook_event_name") :
    isHookPayloadOf (Json.obj fs1) E = isHookPayloadOf (Json.obj fs2) E := by
  simp only [isHookPayloadOf, jsTypeofIsObject, jsIsNull,
    jsHasKey_eq_isSome_jsGet, h]

/-- Witness for C10: an enriched and a bare stop payload with equal
discriminants get the same verdict. -/
theorem isHookPayloadOf_noninterference_witness :
    jsGet
        (Json.obj
          [("hook_event_name", Json.str "stop"), ("extra", Json.bool true)])
        "hook_event_name" =
      jsGet (Json.obj [("hook_event_name", Json.str "stop")])
        "hook_event_name" ∧
    isHookPayloadOf
        (Json.obj
          [("hook_event_name", Json.str "stop"), ("extra", Json.bool true)])
        HookEventName.stop =
      isHookPayloadOf (Json.obj [("hook_event_name", Json.str "stop")])
        HookEventName.stop :=
  ⟨rfl, isHookPayloadOf_noninterference _ _ _ rfl⟩

/-- The results of a sequence of guard invocations within one process
invocation, in call order: the guard holds no state, so the sequence is
a pure map over the calls. -/
def guardCallResults (calls : List (Json × HookEventName)) : List Bool :=
  calls.map (fun c => isHookPayloadOf c.1 c.2)

/-- C7: discrimination is pure and deterministic: in any sequence of
calls, two calls with the same arguments return the same boolean
whatever their positions, and each call's result is a function of its
arguments alone (no hidden state across calls). -/
theorem isHookPayloadOf_pure (calls : List (Json × HookEventName))
    (i j : Fin calls.length)
    (hij : calls.get i = calls.get j) :
    (guardCallResults calls).get
        (Fin.cast (List.length_map calls _).symm i) =
      (guardCallResults calls).get
        (Fin.cast (List.length_map calls _).symm j) ∧
    ∀ k : Fin calls.length,
      (guardCallResults calls).get
          (Fin.cast (List.length_map calls _).symm k) =
        isHookPayloadOf (calls.get k).1 (calls.get k).2 := by
  constructor
  · simp only [guardCallResults, List.get_eq_getElem, Fin.coe_cast,
      List.getElem_map]
    have h : calls[(i : Nat)] = calls[(j : Nat)] := by
      simpa [List.get_eq_getElem] using hij
    rw [h]
  · intro k
    simp [guardCallResults, List.get_eq_getElem, List.getElem_map]

/-- Witness for C7: two identical calls in one sequence agree. -/
theorem isHookPayloadOf_pure_witness :
    (guardCallResults
        [(Json.null, HookEventName.stop), (Json.null, HookEventName.stop)]).get
        (Fin.cast
          (List.length_map
            [(Json.null, HookEventName.stop), (Json.null, HookEventName.stop)]
            _).symm ⟨0, by decide⟩) =
      (guardCallResults
        [(Json.null, HookEventName.stop), (Json.null, HookEventName.stop)]).get
        (Fin.cast
          (List.length_map
            [(Json.null, HookEventName.stop), (Json.null, HookEventName.stop)]
            _).symm ⟨1, by decide⟩) :=
  (isHookPayloadOf_pure
    [(Json.null, HookEventName.stop), (Json.null, HookEventName.stop)]
    ⟨0, by decide⟩ ⟨1, by decide⟩ rfl).1

/-- The HookPermission string union (src/types.ts line 36): membership
test for "allow" | "deny" | "ask". -/
def isHookPermission (s : String) : Bool :=
  s == "allow" || s == "deny" || s == "ask"

/-- The permission union of BeforeReadFileResponse (src/types.ts line
117): membership test for "allow" | "deny". -/
def isReadFilePermission (s : String) : Bool :=
  s == "allow" || s == "deny"

/-- An optional string field (TypeScript `k?: string`): absent, or
present with a string value. -/
def jsOptionalStringField (v : Json) (k : String) : Bool :=
  match jsGet v k with
  | none => true
  | some (Json.str _) => true
  | _ => false

/-- Shape of HookPermissionResponse (src/types.ts lines 41-45): an
object with permission in HookPermission and optional userMessage /
agentMessage strings. -/
def isHookPermissionResponse (v : Json) : Bool :=
  (match jsGet v "permission" with
   | some (Json.str s) => isHookPermission s
   | _ => false) &&
  jsOptionalStringField v "userMessage" &&
  jsOptionalStringField v "agentMessage"

/-- BeforeShellExecutionResponse = HookPermissionResponse (src/types.ts
line 58). -/
def isBeforeShellExecutionResponse : Json → Bool := isHookPermissionResponse

/-- BeforeMCPExecutionResponse = HookPermissionResponse (src/types.ts
line 73). -/
def isBeforeMCPExecutionResponse : Json → Bool := isHookPermissionResponse

/-- Shape of BeforeReadFileResponse (src/types.ts lines 116-118): an
object whose permission is "allow" or "deny" only. -/
def isBeforeReadFileResponse (v : Json) : Bool :=
  match jsGet v "permission" with
  | some (Json.str s) => isReadFilePermission s
  | _ => false

/-- C4: the beforeReadFile response admits exactly the permissions allow
and deny — in particular ask is rejected — while the
beforeShellExecution and beforeMCPExecution responses admit exactly
allow, deny and ask. -/
theorem responsePermission_members :
    (∀ s : String,
      isBeforeReadFileResponse (Json.obj [("permission", Json.str s)]) = true ↔
        s = "allow" ∨ s = "deny") ∧
    isBeforeReadFileResponse (Json.obj [("permission", Json.str "ask")]) =
      false ∧
    (∀ s : String,
      isBeforeShellExecutionResponse
          (Json.obj [("permission", Json.str s)]) = true ↔
        s = "allow" ∨ s = "deny" ∨ s = "ask") ∧
    (∀ s : String,
      isBeforeMCPExecutionResponse
          (Json.obj [("permission", Json.str s)]) = true ↔
        s = "allow" ∨ s = "deny" ∨ s = "ask") := by
  have hget : ∀ s : String,
      jsGet (Json.obj [("permission", Json.str s)]) "permission" =
        some (Json.str s) := fun s => rfl
  have hu : ∀ s : String,
      jsOptionalStringField (Json.obj [("permission", Json.str s)])
        "userMessage" = true := fun s => rfl
  have ha : ∀ s : String,
      jsOptionalStringField (Json.obj [("permission", Json.str s)])
        "agentMessage" = true := fun s => rfl
  refine ⟨?_, by decide, ?_, ?_⟩ <;> intro s <;>
    simp [isBeforeReadFileResponse, isBeforeShellExecutionResponse,
      isBeforeMCPExecutionResponse, isHookPermissionResponse, hget, hu, ha,
      isReadFilePermission, isHookPermission, or_assoc]

/-- One hook definition of hooks.json (src/types.ts HookCommandConfig,
lines 201-207): an object with a string command field. -/
def isHookCommandConfig (v : Json) : Bool :=
  match jsGet v "command" with
  | some (Json.str _) => true
  | _ => false

/-- Membership of a string in the closed six-event wire-name set. -/
def isHookEventNameWire (s : String) : Bool :=
  s == "beforeShellExecution" || s == "beforeMCPExecution" ||
  s == "afterFileEdit" || s == "beforeReadFile" ||
  s == "beforeSubmitPrompt" || s == "stop"

/-- An ordered list of hook definitions for one event. -/
def isHookCommandConfigList (v : Json) : Bool :=
  match v with
  | Json.arr cs => cs.all isHookCommandConfig
  | _ => false

/-- Shape of CursorHooksConfig (src/types.ts lines 215-218): version is
the literal 1, and hooks is a Partial Record over HookEventName whose
values are HookCommandConfig arrays; unknown top-level fields are
tolerated. -/
def isCursorHooksConfig (v : Json) : Bool :=
  (match jsGet v "version" with
   | some (Json.num n) => n == 1
   | _ => false) &&
  (match jsGet v "hooks" with
   | some (Json.obj hs) =>
     hs.all (fun kv => isHookEventNameWire kv.1 && isHookCommandConfigList kv.2)
   | _ => false)

/-- C5: the configuration validator accepts only the version literal 1:
any registration file whose version is another number is rejected, a
version-1 file with empty hooks is accepted, and the version-2 file of
Scenario C is rejected. -/
theorem config_version_must_be_one :
    (∀ (fs : List (String × Json)) (n : Int),
      jsGet (Json.obj fs) "version" = some (Json.num n) → n ≠ 1 →
      isCursorHooksConfig (Json.obj fs) = false) ∧
    isCursorHooksConfig
      (Json.obj [("version", Json.num 1), ("hooks", Json.obj [])]) = true ∧
    isCursorHooksConfig
      (Json.obj [("version", Json.num 2), ("hooks", Json.obj [])]) = false := by
  refine ⟨?_, by decide, by decide⟩
  intro fs n h hn
  simp [isCursorHooksConfig, h, hn]

/-- Witness for C5 at the Scenario C registration file with version 2. -/
theorem config_version_must_be_one_witness :
    jsGet (Json.obj [("version", Json.num 2), ("hooks", Json.obj [])])
        "version" = some (Json.num 2) ∧
    (2 : Int) ≠ 1 ∧
    isCursorHooksConfig
      (Json.obj [("version", Json.num 2), ("hooks", Json.obj [])]) = false :=
  ⟨rfl, by decide, config_version_must_be_one.1 _ 2 rfl (by decide)⟩

/-- C6: a registration file whose hooks mapping contains any key outside
the closed six-event set is rejected, however well-formed the rest of
the file is. -/
theorem config_rejects_unknown_hooks_key
    (fs hs : List (String × Json)) (k : String) (w : Json)
    (hh : jsGet (Json.obj fs) "hooks" = some (Json.obj hs))
    (hmem : (k, w) ∈ hs)
    (hk : isHookEventNameWire k = false) :
    isCursorHooksConfig (Json.obj fs) = false := by
  have hall :
      hs.all
        (fun kv => isHookEventNameWire kv.1 && isHookCommandConfigList kv.2) =
        false := by
    apply Bool.eq_false_iff.mpr
    intro hall
    have := List.all_eq_true.mp hall _ hmem
    simp [hk] at this
  simp [isCursorHooksConfig, hh, hall]

/-- Witness for C6 at the Scenario E registration file containing the
unknown key notAnEvent. -/
theorem config_rejects_unknown_hooks_key_witness :
    jsGet
        (Json.obj
          [("version", Json.num 1),
           ("hooks",
            Json.obj
              [("beforeReadFile",
                Json.arr [Json.obj [("command", Json.str "./x.sh")]]),
               ("notAnEvent", Json.arr [])])]) "hooks" =
      some
        (Json.obj
          [("beforeReadFile",
            Json.arr [Json.obj [("command", Json.str "./x.sh")]]),
           ("notAnEvent", Json.arr [])]) ∧
    isHookEventNameWire "notAnEvent" = false ∧
    isCursorHooksConfig
      (Json.obj
        [("version", Json.num 1),
         ("hooks",
          Json.obj
            [("beforeReadFile",
              Json.arr [Json.obj [("command", Json.str "./x.sh")]]),
             ("notAnEvent", Json.arr [])])]) = false :=
  ⟨rfl, rfl,
    config_rejects_unknown_hooks_key _ _ "notAnEvent" (Json.arr []) rfl
      (List.mem_cons.mpr (Or.inr (List.mem_singleton.mpr rfl))) rfl⟩

/-- A registered handler: from the decoded payload to an optional
response value to print (void handlers print none).  README
"Combining handlers" snippet. -/
def HandlerFun : Type := Json → Option Json

/-- Result of one dispatch: the selected handler ran and its optional
response is handed to the transport, or no handler was registered for
the payload's discriminant. -/
inductive DispatchResult where
  | responded : Option Json → DispatchResult
  | noHandler : DispatchResult

/-- Property lookup handlers[key] on the handler table, whose keys are
the wire names of the registered events. -/
def lookupHandler (handlers : List (HookEventName × HandlerFun))
    (key : String) : Option HandlerFun :=
  (handlers.find? (fun kv => HookEventName.toWire kv.1 == key)).map
    (fun kv => kv.2)

/-- Dispatch of one decoded payload through the handler table, from the
README snippet: const handler = handlers[payload.hook_event_name]; if
(handler) print the awaited response when defined; else report and
process.exit(1).  A missing or non-string discriminant also finds no
handler. -/
def dispatch (handlers : List (HookEventName × HandlerFun))
    (payload : Json) : DispatchResult :=
  match jsGet payload "hook_event_name" with
  | some (Json.str key) =>
    match lookupHandler handlers key with
    | some h => DispatchResult.responded (h payload)
    | none => DispatchResult.noHandler
  | _ => DispatchResult.noHandler

/-- Exit status the snippet gives the transport: process.exit(1) on the
no-handler branch, normal termination (0) after a handled payload. -/
def dispatchExitCode : DispatchResult → Nat
  | DispatchResult.responded _ => 0
  | DispatchResult.noHandler => 1

/-- C8: dispatching a payload whose discriminant names an event with no
registered handler yields the explicit no-handler result, surfaced as a
non-zero exit, and never invokes any handler (never a responded
result). -/
theorem dispatch_unregistered_event_fails
    (handlers : List (HookEventName × HandlerFun)) (E : HookEventName)
    (payload : Json)
    (hd : jsGet payload "hook_event_name" =
      some (Json.str (HookEventName.toWire E)))
    (hE : ∀ kv ∈ handlers, kv.1 ≠ E) :
    dispatch handlers payload = DispatchResult.noHandler ∧
    dispatchExitCode (dispatch handlers payload) = 1 ∧
    ∀ r : Option Json,
      dispatch handlers payload ≠ DispatchResult.responded r := by
  have hlook : lookupHandler handlers (HookEventName.toWire E) = none := by
    have hfind :
        handlers.find?
          (fun kv => HookEventName.toWire kv.1 == HookEventName.toWire E) =
          none := by
      apply List.find?_eq_none.mpr
      intro kv hkv
      have hne := hE kv hkv
      have hb : (HookEventName.toWire kv.1 == HookEventName.toWire E) = false :=
        beq_false_of_ne (fun hEq => hne (HookEventName.toWire_injective hEq))
      simp [hb]
    simp [lookupHandler, hfind]
  have hdisp : dispatch handlers payload = DispatchResult.noHandler := by
    simp [dispatch, hd, hlook]
  refine ⟨hdisp, ?_, ?_⟩
  · rw [hdisp]
    rfl
  · intro r
    rw [hdisp]
    intro hcontra
    cases hcontra

/-- Witness for C8: a table registered only for beforeReadFile fails on
a stop payload. -/
theorem dispatch_unregistered_event_fails_witness :
    jsGet (Json.obj [("hook_event_name", Json.str "stop")])
        "hook_event_name" =
      some (Json.str (HookEventName.toWire HookEventName.stop)) ∧
    dispatch [(HookEventName.beforeReadFile, fun _ => some Json.null)]
        (Json.obj [("hook_event_name", Json.str "stop")]) =
      DispatchResult.noHandler ∧
    dispatchExitCode
        (dispatch [(HookEventName.beforeReadFile, fun _ => some Json.null)]
          (Json.obj [("hook_event_name", Json.str "stop")])) = 1 :=
  ⟨rfl,
    (dispatch_unregistered_event_fails
      [(HookEventName.beforeReadFile, fun _ => some Json.null)]
      HookEventName.stop (Json.obj [("hook_event_name", Json.str "stop")]) rfl
      (by
        intro kv hkv
        rw [List.mem_singleton] at hkv
        subst hkv
        simp)).1,
    (dispatch_unregistered_event_fails
      [(HookEventName.beforeReadFile, fun _ => some Json.null)]
      HookEventName.stop (Json.obj [("hook_event_name", Json.str "stop")]) rfl
      (by
        intro kv hkv
        rw [List.mem_singleton] at hkv
        subst hkv
        simp)).2.1⟩
